import Mathlib

/-!
Verification development for the lawson-quant-library core: day-count
utilities (util.py), the Garman-Kohlhagen analytic FX model
(model/gk_analyytic_fx.py), the equity volatility parameter
(parameter/vol.py) and the Newton-Raphson implied-volatility solver
(instrument/eq_option.py).

Python floats are modelled as real numbers (or as rationals where the
computation is exact date arithmetic).  Python exceptions are modelled
as `Except` / explicit error components.  External QuantLib pricing
(used by BlackScholesAnalyticEQModel.price) is modelled as an abstract
total function on the model state.
-/

/-- Calendar date, as year / month / day, mirroring the date
representations accepted throughout util.py and gk_analyytic_fx.py. -/
structure Date where
  year : Int
  month : Int
  day : Int
deriving DecidableEq, Repr

/-- Serial day number of a civil date (days-from-civil algorithm, as used
by both python datetime subtraction in `_year_fraction_act365` and the
QuantLib date serials behind `util.year_fraction`): only differences of
two values are ever used. -/
def Date.toSerial (dt : Date) : Int :=
  let y : Int := if dt.month ≤ 2 then dt.year - 1 else dt.year
  let era : Int := (if 0 ≤ y then y else y - 399) / 400
  let yoe : Int := y - era * 400
  let mp : Int := (dt.month + 9) % 12
  let doy : Int := (153 * mp + 2) / 5 + dt.day - 1
  let doe : Int := yoe * 365 + yoe / 4 - yoe / 100 + doy
  era * 146097 + doe

/-- Number of days from `start` to `stop`, as computed by
`(d1 - d0).days` in `_year_fraction_act365` and by QuantLib day
counters. -/
def daysBetween (start stop : Date) : Int :=
  stop.toSerial - start.toSerial

/-- Day-count conventions supported by `util.get_day_count`:
ACT365F, ACT360 and 30/360 (bond basis). -/
inductive DayCount where
  | act365f
  | act360
  | thirty360
deriving DecidableEq, Repr

/-- Day count under the QuantLib Thirty360 bond-basis convention
(the object returned by `get_day_count` for "30/360"). -/
def thirty360Days (start stop : Date) : Int :=
  let dd1 := start.day
  let dd2 := stop.day
  let mm1 := start.month
  let mm2 := stop.month
  let dd2' := if dd2 = 31 ∧ dd1 < 30 then 1 else dd2
  let mm2' := if dd2 = 31 ∧ dd1 < 30 then mm2 + 1 else mm2
  360 * (stop.year - start.year) + 30 * (mm2' - mm1 - 1) +
    max 0 (30 - dd1) + min 30 dd2'

/-- Embedding of `util.year_fraction(start, end, day_count)`: it returns
`dc.yearFraction(d1, d2)` for the QuantLib day counter named by the
convention, with no clamping of any kind. -/
def year_fraction (start stop : Date) (dayCount : DayCount) : ℚ :=
  match dayCount with
  | .act365f => (daysBetween start stop : ℚ) / 365
  | .act360 => (daysBetween start stop : ℚ) / 360
  | .thirty360 => (thirty360Days start stop : ℚ) / 360

/-- Embedding of `_year_fraction_act365(start, end)` from
gk_analyytic_fx.py: `max(0.0, days / 365.0)` — this helper, unlike
`util.year_fraction`, clamps at zero. -/
def gkYearFractionAct365 (start stop : Date) : ℚ :=
  max 0 ((daysBetween start stop : ℚ) / 365)

/-- Stored volatility term structure of an `EQVol` parameter
(parameter/vol.py): either a `BlackConstantVol` built by `set_flat_vol`
or a `BlackVarianceSurface` built by `set_surface_vol`; the
relinkable handle always points at the stored structure. -/
inductive VolTS where
  | flat (sigma : ℝ) (referenceDate : Date)
  | surface (strikes : List ℝ) (tenors : List String)
      (grid : List (List ℝ)) (referenceDate : Date)

/-- State of an `EQVol` parameter: its currency and the currently
stored term structure (`_vol` is `None` right after construction). -/
structure EQVol where
  currency : String
  volTS : Option VolTS

/-- Embedding of `EQVol(currency=...)`: no term structure stored yet. -/
def mkEQVol (currency : String) : EQVol :=
  { currency := currency, volTS := none }

/-- Embedding of `EQVol.set_flat_vol(vol, reference_date)`: build a
constant vol structure and relink the handle to it. -/
def EQVol.set_flat_vol (v : EQVol) (vol : ℝ) (referenceDate : Date) : EQVol :=
  { v with volTS := some (.flat vol referenceDate) }

/-- Embedding of `EQVol.set_surface_vol(strikes, tenors, vols, ...)`.
The three shape checks run first, in source order, and raise
(returning the message and the unchanged state) before any surface
object is built; only when all pass is the stored structure replaced. -/
def EQVol.set_surface_vol (v : EQVol) (strikes : List ℝ) (tenors : List String)
    (vols : List (List ℝ)) (referenceDate : Date) : Option String × EQVol :=
  if tenors.length = 0 ∨ strikes.length = 0 then
    (some "tenors and strikes must be non-empty.", v)
  else if vols.length ≠ tenors.length then
    (some "vols must have one row per tenor (len(vols) == len(tenors)).", v)
  else if vols.any (fun row => row.length ≠ strikes.length) then
    (some "Each vols row must have length len(strikes).", v)
  else
    (none, { v with volTS := some (.surface strikes tenors vols referenceDate) })

/-- Flat interest-rate curve state (parameter/ir_curve.py, as consumed by
the solver: the curve object is only ever passed through to the model). -/
structure IRCurve where
  rate : ℝ

/-- Flat dividend curve state (parameter/div_curve.py). -/
structure DivCurve where
  rate : ℝ

/-- State of a `BlackScholesAnalyticEQModel` (model/bs_analytic_eq.py):
an immutable snapshot of spot, the two curves and the vol parameter.
Its `price` method delegates to the external QuantLib analytic engine,
so pricing is abstracted as a function over this state. -/
structure BSModel where
  spot : ℝ
  ir_curve : IRCurve
  div_curve : DivCurve
  vol : EQVol

/-- Errors surfaced by `EQOption.implied_vol` (instrument/eq_option.py):
`ValueError` from validation, `AttributeError` from a missing attribute,
`RuntimeError` from the solver itself. -/
inductive IVErr where
  | valueError (msg : String)
  | attributeError (msg : String)
  | runtimeError (msg : String)
deriving DecidableEq, Repr

/-- Result of the attribute lookup `tmp_model.vega` in
`EQOption.implied_vol`: `BlackScholesAnalyticEQModel` defines only
`price`, `greeks` and `set_spot` (vega is available solely inside the
dict returned by `greeks`), so the lookup raises `AttributeError`. -/
def BSModel.vegaLookup : BSModel → Except IVErr ℝ :=
  fun _ => .error (.attributeError
    "BlackScholesAnalyticEQModel object has no attribute vega")

/-- State of an `EQOption` (instrument/eq_option.py): option economics
plus the optional market references the solver reads. -/
structure EQOption where
  strike : ℝ
  maturity_date : Date
  option_type : String
  pricing_engine : String
  ir_curve : Option IRCurve
  div_curve : Option DivCurve
  vol : Option EQVol
  spot : Option ℝ

/-- Embedding of `EQOption.validate_market`: collect the names of the
missing market inputs, raising `ValueError` when any are absent. -/
def EQOption.validate_market (o : EQOption) : Option String :=
  let missing :=
    (if o.spot.isNone then ["spot"] else []) ++
    (if o.ir_curve.isNone then ["ir_curve"] else []) ++
    (if o.div_curve.isNone then ["div_curve"] else []) ++
    (if o.vol.isNone then ["vol"] else [])
  if missing.isEmpty then none
  else some ("EQOption missing market inputs: " ++ String.intercalate ", " missing)

/-- Currency used for the per-iteration temporary vol:
`getattr(self.vol, "currency", "USD")`. -/
def EQOption.volCurrency (o : EQOption) : String :=
  match o.vol with
  | some v => v.currency
  | none => "USD"

/-- The temporary model built in each solver iteration: a fresh `EQVol`
carrying a flat vol at the current sigma, wrapped with the option
market snapshot. -/
def EQOption.tmpModel (o : EQOption) (sigma : ℝ) (referenceDate : Date)
    (s : ℝ) (ir : IRCurve) (dv : DivCurve) : BSModel :=
  { spot := s, ir_curve := ir, div_curve := dv,
    vol := (mkEQVol o.volCurrency).set_flat_vol sigma referenceDate }

/-- Outcome of one `implied_vol` call: the returned value or exception,
the number of loop iterations entered (each performs exactly one price
evaluation), and the option state after the call. -/
structure IVRun where
  out : Except IVErr ℝ
  rounds : ℕ
  state : EQOption

/-- Embedding of the Newton-Raphson loop of `EQOption.implied_vol`
(instrument/eq_option.py lines 120-146), with the external QuantLib
price of the temporary model abstracted as `P`.  Each iteration builds
a fresh flat vol and model, prices, tests convergence, then looks up
`tmp_model.vega` (an `AttributeError`, see `BSModel.vegaLookup`); the
remaining source lines (low-vega guard, Newton update with its clamp
at `1e-6`, and the final non-convergence `RuntimeError`) are embedded
as written. -/
noncomputable def ivLoop (P : BSModel → ℝ) (target tol : ℝ) (referenceDate : Date) :
    ℕ → ℝ → EQOption → IVRun
  | 0, _, o => ⟨.error (.runtimeError "Implied vol solver failed to converge"), 0, o⟩
  | fuel + 1, sigma, o =>
    match o.spot, o.ir_curve, o.div_curve with
    | some s, some ir, some dv =>
      let tmp_model := o.tmpModel sigma referenceDate s ir dv
      let price := P tmp_model
      let diff := price - target
      if |diff| < tol then ⟨.ok sigma, 1, o⟩
      else
        match tmp_model.vegaLookup with
        | .error e => ⟨.error e, 1, o⟩
        | .ok vega =>
          if |vega| < 1e-8 then
            ⟨.error (.runtimeError "Vega too small for stable IV solve"), 1, o⟩
          else
            let sigma' := sigma - diff / vega
            let sigma'' := if sigma' ≤ 0 then 1e-6 else sigma'
            let r := ivLoop P target tol referenceDate fuel sigma'' o
            ⟨r.out, r.rounds + 1, r.state⟩
    | _, _, _ => ⟨.error (.valueError "missing market inputs"), 1, o⟩

/-- Embedding of `EQOption.implied_vol`: market validation, then the
engine gate (only `bs_analytic`, with `default` normalised to it), then
the Newton loop started at `initial_vol`.  No other check runs before
the loop; in particular `target_price` is never examined. -/
noncomputable def EQOption.implied_vol (P : BSModel → ℝ) (o : EQOption) (target_price : ℝ)
    (reference_date : Date) (initial_vol tol : ℝ) (max_iter : ℕ) : IVRun :=
  match o.validate_market with
  | some msg => ⟨.error (.valueError msg), 0, o⟩
  | none =>
    let engine := if o.pricing_engine = "default" then "bs_analytic" else o.pricing_engine
    if engine ≠ "bs_analytic" then
      ⟨.error (.valueError
        "implied_vol is currently implemented for pricing_engine bs_analytic only"), 0, o⟩
    else
      ivLoop P target_price tol reference_date max_iter initial_vol o

/-- Error function as computed by `math.erf`, the closed-form identity
used by `_norm_cdf` in gk_analyytic_fx.py:
`erf x = (2 / sqrt pi) * integral of exp (-t^2) from 0 to x`. -/
noncomputable def erf (x : ℝ) : ℝ :=
  (2 / Real.sqrt Real.pi) * ∫ t in (0:ℝ)..x, Real.exp (-t ^ 2)

/-- Embedding of `_norm_cdf(x) = 0.5 * (1 + erf(x / sqrt 2))`. -/
noncomputable def norm_cdf (x : ℝ) : ℝ :=
  0.5 * (1 + erf (x / Real.sqrt 2))

/-- Embedding of `_norm_pdf(x) = exp(-0.5 x^2) / sqrt(2 pi)`. -/
noncomputable def norm_pdf (x : ℝ) : ℝ :=
  Real.exp (-0.5 * x ^ 2) / Real.sqrt (2 * Real.pi)

/-- Shapes of curve object that `_get_curve_rate` distinguishes through
its getattr probes: a missing curve (`None`), an object with a callable
rate accessor, an object with a flat-rate attribute, an object
convertible by `float`, and anything else (which makes every probe
fail). -/
inductive CurveObj where
  | withRateFn (f : ℝ → ℝ)
  | withRateAttr (r : ℝ)
  | floatLike (x : ℝ)
  | opaqueObj

/-- Embedding of `_get_curve_rate(curve, t)` (gk_analyytic_fx.py lines
61-86): a `None` curve is silently read as the rate `0.0`; otherwise the
method probes, the attribute probes and the final `float(curve)` are
tried in order, and only when everything fails is a `TypeError` raised. -/
def getCurveRate (curve : Option CurveObj) (t : ℝ) : Except String ℝ :=
  match curve with
  | none => .ok 0
  | some (.withRateFn f) => .ok (f t)
  | some (.withRateAttr r) => .ok r
  | some (.floatLike x) => .ok x
  | some .opaqueObj => .error "Could not infer a rate from curve object"

/-- Shapes of vol object that `_get_vol` distinguishes. -/
inductive VolObj where
  | withValueFn (x : ℝ)
  | withSigmaAttr (x : ℝ)
  | floatLike (x : ℝ)
  | opaqueObj

/-- Embedding of `_get_vol(vol)`: a `None` vol raises
`ValueError("vol is required")`; otherwise the probes run in order. -/
def getVol (vol : Option VolObj) : Except String ℝ :=
  match vol with
  | none => .error "vol is required"
  | some (.withValueFn x) => .ok x
  | some (.withSigmaAttr x) => .ok x
  | some (.floatLike x) => .ok x
  | some .opaqueObj => .error "Could not infer vol from object"

/-- View of the option object as `GarmanKohlhagenAnalyticFXModel._inputs`
reads it via getattr: each field is `none` when the attribute is absent.
The curve fields mirror the three-way getattr chains for the domestic
and foreign curves and the two-way chains for vol and reference date. -/
structure FXOptionView where
  spot : Option ℝ
  strike : Option ℝ
  maturity_date : Option Date
  reference_date : Option Date
  valuation_date : Option Date
  rd_curve : Option CurveObj
  domestic_curve : Option CurveObj
  ir_curve : Option CurveObj
  rf_curve : Option CurveObj
  foreign_curve : Option CurveObj
  div_curve : Option CurveObj
  vol : Option VolObj
  fx_vol : Option VolObj
  option_type : Option String

/-- Test whether the lower-cased string starts with the letter c:
the computation `str(...).lower().startswith("c")` deciding the
call/put flag in `_inputs`. -/
def pyLowerStartsWithC (s : String) : Bool :=
  match s.data.map Char.toLower with
  | [] => false
  | c :: _ => c = 'c'

/-- Resolved pricing inputs `_GKInputs(s, k, t, rd, rf, sigma, is_call)`. -/
structure GKInputs where
  s : ℝ
  k : ℝ
  t : ℝ
  rd : ℝ
  rf : ℝ
  sigma : ℝ
  is_call : Bool

/-- Embedding of `GarmanKohlhagenAnalyticFXModel._inputs(option,
reference_date)` (gk_analyytic_fx.py lines 135-177), for option objects
that do not carry their own `year_fraction` (the time to expiry then
comes from `_year_fraction_act365`).  The checks run in source order:
spot and strike lookups, the maturity check, reference-date resolution,
the positivity check on `t`, the two curve reads (where a missing curve
yields rate `0.0`), the vol read and its positivity check, and finally
the call/put flag from the first letter of `option_type`. -/
noncomputable def gkInputs (option : FXOptionView) (reference_date : Option Date) :
    Except String GKInputs :=
  match option.spot with
  | none => .error "AttributeError: spot"
  | some s =>
  match option.strike with
  | none => .error "AttributeError: strike"
  | some k =>
  match option.maturity_date with
  | none => .error "Option is missing maturity_date"
  | some maturity =>
  match reference_date <|> option.reference_date <|> option.valuation_date with
  | none => .error "reference_date is required for GK model"
  | some ref =>
  let t : ℚ := gkYearFractionAct365 ref maturity
  if t ≤ 0 then .error "Non-positive time to expiry"
  else
    match getCurveRate (option.rd_curve <|> option.domestic_curve <|> option.ir_curve) (t : ℝ) with
    | .error e => .error e
    | .ok rd =>
    match getCurveRate (option.rf_curve <|> option.foreign_curve <|> option.div_curve) (t : ℝ) with
    | .error e => .error e
    | .ok rf =>
    match getVol (option.vol <|> option.fx_vol) with
    | .error e => .error e
    | .ok sigma =>
      if sigma ≤ 0 then .error "Vol must be positive"
      else
        .ok { s := s, k := k, t := (t : ℝ), rd := rd, rf := rf,
              sigma := sigma,
              is_call := pyLowerStartsWithC (option.option_type.getD "call") }

/-- Embedding of `GarmanKohlhagenAnalyticFXModel._d1_d2`:
`d1 = (log(s/k) + (rd - rf + 0.5 sigma^2) t) / (sigma sqrt t)` and
`d2 = d1 - sigma sqrt t` (the source raises when
`sigma * sqrt t <= 0`; the claims below always carry the positivity
hypotheses that make that check pass). -/
noncomputable def d1_d2 (inp : GKInputs) : ℝ × ℝ :=
  let st := inp.sigma * Real.sqrt inp.t
  let d1 := (Real.log (inp.s / inp.k) + (inp.rd - inp.rf + 0.5 * inp.sigma ^ 2) * inp.t) / st
  (d1, d1 - st)

/-- Embedding of `GarmanKohlhagenAnalyticFXModel.price`. -/
noncomputable def gk_price (inp : GKInputs) : ℝ :=
  let d := d1_d2 inp
  let df_d := Real.exp (-inp.rd * inp.t)
  let df_f := Real.exp (-inp.rf * inp.t)
  if inp.is_call then inp.s * df_f * norm_cdf d.1 - inp.k * df_d * norm_cdf d.2
  else inp.k * df_d * norm_cdf (-d.2) - inp.s * df_f * norm_cdf (-d.1)

/-- Embedding of `GarmanKohlhagenAnalyticFXModel.delta` (spot delta,
not premium-adjusted). -/
noncomputable def gk_delta (inp : GKInputs) : ℝ :=
  let d := d1_d2 inp
  let df_f := Real.exp (-inp.rf * inp.t)
  if inp.is_call then df_f * norm_cdf d.1
  else df_f * (norm_cdf d.1 - 1)

/-- Embedding of `GarmanKohlhagenAnalyticFXModel.vega` (per 1.0 vol). -/
noncomputable def gk_vega (inp : GKInputs) : ℝ :=
  let d := d1_d2 inp
  let df_f := Real.exp (-inp.rf * inp.t)
  inp.s * df_f * norm_pdf d.1 * Real.sqrt inp.t

/-- Sample pricing map for concrete solver runs: reads back the flat vol
sigma stored in the model's vol parameter (a legitimate instance of the
abstract external pricing function). -/
def flatSigmaPrice (m : BSModel) : ℝ :=
  match m.vol.volTS with
  | some (.flat sigma _) => sigma
  | _ => 0

/-- Sample date 2024-01-01. -/
def dateA : Date := ⟨2024, 1, 1⟩

/-- Sample date 2024-01-02. -/
def dateB : Date := ⟨2024, 1, 2⟩

/-- Sample date 2023-01-01. -/
def dateC : Date := ⟨2023, 1, 1⟩

/-- Sample equity option with a complete market snapshot. -/
noncomputable def sampleOption : EQOption :=
  { strike := 100, maturity_date := dateB, option_type := "call",
    pricing_engine := "bs_analytic", ir_curve := some ⟨3 / 100⟩,
    div_curve := some ⟨0⟩, vol := some (mkEQVol "USD"), spot := some 100 }

/-- Sample FX option view whose domestic and foreign rate-curve
attribute chains are entirely absent, with everything else present
(spot 1, strike 1, one year to expiry, vol 0.2). -/
noncomputable def sampleFXView : FXOptionView :=
  { spot := some 1, strike := some 1, maturity_date := some dateA,
    reference_date := some dateC, valuation_date := none,
    rd_curve := none, domestic_curve := none, ir_curve := none,
    rf_curve := none, foreign_curve := none, div_curve := none,
    vol := some (.withValueFn (1 / 5)), fx_vol := none,
    option_type := some "call" }

open MeasureTheory intervalIntegral Set

lemma gauss_continuous : Continuous fun t : ℝ => Real.exp (-t ^ 2) := by
  fun_prop

lemma gauss_integrable : Integrable fun t : ℝ => Real.exp (-t ^ 2) := by
  have h := integrable_exp_neg_mul_sq (b := 1) one_pos
  simpa using h

lemma erf_neg (x : ℝ) : erf (-x) = -erf x := by
  unfold erf
  have h1 : (∫ t in (0:ℝ)..x, Real.exp (-(-t) ^ 2)) = ∫ t in (-x)..(-(0:ℝ)), Real.exp (-t ^ 2) :=
    intervalIntegral.integral_comp_neg (fun t => Real.exp (-t ^ 2))
  have h2 : (∫ t in (0:ℝ)..x, Real.exp (-t ^ 2)) = ∫ t in (-x)..(0:ℝ), Real.exp (-t ^ 2) := by
    simpa [neg_sq] using h1
  have h3 : (∫ t in (-x)..(0:ℝ), Real.exp (-t ^ 2)) = -∫ t in (0:ℝ)..(-x), Real.exp (-t ^ 2) :=
    intervalIntegral.integral_symm 0 (-x)
  rw [h2, h3]
  ring

lemma gauss_interval_lt (x : ℝ) :
    (∫ t in (0:ℝ)..x, Real.exp (-t ^ 2)) < Real.sqrt Real.pi / 2 := by
  have hpi : 0 < Real.sqrt Real.pi / 2 := by
    have := Real.sqrt_pos.mpr Real.pi_pos
    linarith
  rcases le_or_lt x 0 with hx | hx
  · have hnn : 0 ≤ ∫ t in x..(0:ℝ), Real.exp (-t ^ 2) :=
      intervalIntegral.integral_nonneg hx (fun u _ => (Real.exp_pos _).le)
    have : (∫ t in (0:ℝ)..x, Real.exp (-t ^ 2)) = -∫ t in x..(0:ℝ), Real.exp (-t ^ 2) :=
      intervalIntegral.integral_symm x 0
    rw [this]
    linarith
  · have hIoi : (∫ t in Ioi (0:ℝ), Real.exp (-t ^ 2)) = Real.sqrt Real.pi / 2 := by
      have h := integral_gaussian_Ioi 1
      simpa using h
    have hsplit : (∫ t in Ioi (0:ℝ), Real.exp (-t ^ 2)) =
        (∫ t in Ioc (0:ℝ) x, Real.exp (-t ^ 2)) + ∫ t in Ioi x, Real.exp (-t ^ 2) := by
      rw [← Set.Ioc_union_Ioi_eq_Ioi hx.le]
      exact setIntegral_union (Set.Ioc_disjoint_Ioi le_rfl) measurableSet_Ioi
        gauss_integrable.integrableOn gauss_integrable.integrableOn
    have hpos : 0 < ∫ t in Ioi x, Real.exp (-t ^ 2) := by
      rw [setIntegral_pos_iff_support_of_nonneg_ae]
      · have hsupp : (Function.support fun t : ℝ => Real.exp (-t ^ 2)) = Set.univ := by
          ext t; simp [Function.support, Real.exp_ne_zero]
        rw [hsupp, Set.univ_inter]
        simp [Real.volume_Ioi]
      · exact Filter.Eventually.of_forall (fun t => (Real.exp_pos _).le)
      · exact gauss_integrable.integrableOn
    have heq : (∫ t in (0:ℝ)..x, Real.exp (-t ^ 2)) = ∫ t in Ioc (0:ℝ) x, Real.exp (-t ^ 2) :=
      intervalIntegral.integral_of_le hx.le
    rw [heq]
    rw [hsplit] at hIoi
    linarith

lemma erf_lt_one (x : ℝ) : erf x < 1 := by
  have h := gauss_interval_lt x
  have hs : 0 < Real.sqrt Real.pi := Real.sqrt_pos.mpr Real.pi_pos
  have h2 : 0 < 2 / Real.sqrt Real.pi := by positivity
  unfold erf
  have := mul_lt_mul_of_pos_left h h2
  calc (2 / Real.sqrt Real.pi) * ∫ t in (0:ℝ)..x, Real.exp (-t ^ 2)
      < (2 / Real.sqrt Real.pi) * (Real.sqrt Real.pi / 2) := this
    _ = 1 := by field_simp
lemma neg_one_lt_erf (x : ℝ) : -1 < erf x := by
  have h := erf_lt_one (-x)
  rw [erf_neg] at h
  linarith

lemma norm_cdf_add_neg (x : ℝ) : norm_cdf x + norm_cdf (-x) = 1 := by
  unfold norm_cdf
  rw [neg_div, erf_neg]
  ring

lemma norm_cdf_pos (x : ℝ) : 0 < norm_cdf x := by
  unfold norm_cdf
  have := neg_one_lt_erf (x / Real.sqrt 2)
  linarith

lemma norm_cdf_lt_one (x : ℝ) : norm_cdf x < 1 := by
  unfold norm_cdf
  have := erf_lt_one (x / Real.sqrt 2)
  linarith

lemma hasDerivAt_erf (x : ℝ) :
    HasDerivAt erf (2 / Real.sqrt Real.pi * Real.exp (-x ^ 2)) x := by
  have hint : IntervalIntegrable (fun t : ℝ => Real.exp (-t ^ 2)) volume 0 x :=
    gauss_continuous.intervalIntegrable 0 x
  have hmeas : StronglyMeasurableAtFilter (fun t : ℝ => Real.exp (-t ^ 2)) (nhds x) :=
    gauss_continuous.stronglyMeasurable.stronglyMeasurableAtFilter
  have h := (intervalIntegral.integral_hasDerivAt_right hint hmeas
    gauss_continuous.continuousAt).const_mul (2 / Real.sqrt Real.pi)
  simpa [erf, mul_comm] using h

lemma hasDerivAt_norm_cdf (x : ℝ) : HasDerivAt norm_cdf (norm_pdf x) x := by
  have h2 : (0:ℝ) < Real.sqrt 2 := Real.sqrt_pos.mpr two_pos
  have hinner : HasDerivAt (fun y : ℝ => y / Real.sqrt 2) (1 / Real.sqrt 2) x := by
    simpa using (hasDerivAt_id x).div_const (Real.sqrt 2)
  have hcomp : HasDerivAt (fun y : ℝ => erf (y / Real.sqrt 2))
      (2 / Real.sqrt Real.pi * Real.exp (-(x / Real.sqrt 2) ^ 2) * (1 / Real.sqrt 2)) x :=
    (hasDerivAt_erf (x / Real.sqrt 2)).comp x hinner
  have hfull : HasDerivAt norm_cdf
      (0.5 * (2 / Real.sqrt Real.pi * Real.exp (-(x / Real.sqrt 2) ^ 2) * (1 / Real.sqrt 2))) x := by
    unfold norm_cdf
    exact ((hcomp.const_add 1).const_mul 0.5)
  have heq : 0.5 * (2 / Real.sqrt Real.pi * Real.exp (-(x / Real.sqrt 2) ^ 2) * (1 / Real.sqrt 2))
      = norm_pdf x := by
    have hx2 : (x / Real.sqrt 2) ^ 2 = x ^ 2 / 2 := by
      rw [div_pow, Real.sq_sqrt (by norm_num : (0:ℝ) ≤ 2)]
    have hsqrtmul : Real.sqrt 2 * Real.sqrt Real.pi = Real.sqrt (2 * Real.pi) := by
      rw [← Real.sqrt_mul (by norm_num : (0:ℝ) ≤ 2)]
    have hpi : 0 < Real.sqrt Real.pi := Real.sqrt_pos.mpr Real.pi_pos
    unfold norm_pdf
    rw [hx2]
    rw [← hsqrtmul]
    have : -0.5 * x ^ 2 = -(x ^ 2 / 2) := by ring
    rw [this]
    field_simp
    ring
  rw [heq] at hfull
  exact hfull

lemma norm_pdf_shift (A st L : ℝ) (hAst : A * st = L) :
    norm_pdf (A - st / 2) = Real.exp L * norm_pdf (A + st / 2) := by
  unfold norm_pdf
  rw [← mul_div_assoc, ← Real.exp_add]
  congr 2
  linear_combination hAst

-- d1 in split form
lemma d1_split (s k t rd rf σ : ℝ) (ht : 0 < t) (hσ : 0 < σ) :
    (d1_d2 ⟨s, k, t, rd, rf, σ, true⟩).1 =
      (Real.log (s / k) + (rd - rf) * t) / (σ * Real.sqrt t) + σ * Real.sqrt t / 2 := by
  obtain ⟨u, hupos, hut⟩ : ∃ u : ℝ, 0 < u ∧ u * u = t :=
    ⟨Real.sqrt t, Real.sqrt_pos.mpr ht, Real.mul_self_sqrt ht.le⟩
  subst hut
  simp only [d1_d2]
  rw [Real.sqrt_mul_self hupos.le]
  field_simp
  ring

lemma gk_pdf_identity (s k t rd rf σ : ℝ)
    (hs : 0 < s) (hk : 0 < k) (ht : 0 < t) (hσ : 0 < σ) :
    k * Real.exp (-rd * t) * norm_pdf (d1_d2 ⟨s, k, t, rd, rf, σ, true⟩).2 =
      s * Real.exp (-rf * t) * norm_pdf (d1_d2 ⟨s, k, t, rd, rf, σ, true⟩).1 := by
  have hst : (0:ℝ) < σ * Real.sqrt t := by positivity
  have hd1 := d1_split s k t rd rf σ ht hσ
  have hd2 : (d1_d2 ⟨s, k, t, rd, rf, σ, true⟩).2 =
      (Real.log (s / k) + (rd - rf) * t) / (σ * Real.sqrt t) - σ * Real.sqrt t / 2 := by
    have : (d1_d2 ⟨s, k, t, rd, rf, σ, true⟩).2 =
        (d1_d2 ⟨s, k, t, rd, rf, σ, true⟩).1 - σ * Real.sqrt t := by
      simp [d1_d2]
    rw [this, hd1]
    ring
  set A := (Real.log (s / k) + (rd - rf) * t) / (σ * Real.sqrt t) with hA
  have hAst : A * (σ * Real.sqrt t) = Real.log (s / k) + (rd - rf) * t := by
    rw [hA]; field_simp
  have hshift := norm_pdf_shift A (σ * Real.sqrt t) _ hAst
  rw [hd1, hd2, hshift]
  have hexp : Real.exp (Real.log (s / k) + (rd - rf) * t) =
      s / k * Real.exp ((rd - rf) * t) := by
    rw [Real.exp_add, Real.exp_log (by positivity : (0:ℝ) < s / k)]
  rw [hexp]
  simp only [neg_mul]
  have hcomb : Real.exp (-(rd * t)) * Real.exp ((rd - rf) * t) = Real.exp (-(rf * t)) := by
    rw [← Real.exp_add]; ring_nf
  set B := norm_pdf (A + σ * Real.sqrt t / 2) with hB
  field_simp
  linear_combination (s * k * B) * hcomb

theorem gk_vega_is_deriv (s k t rd rf σ : ℝ)
    (hs : 0 < s) (hk : 0 < k) (ht : 0 < t) (hσ : 0 < σ) :
    HasDerivAt (fun v => gk_price ⟨s, k, t, rd, rf, v, true⟩)
      (gk_vega ⟨s, k, t, rd, rf, σ, true⟩) σ := by
  have hut : 0 < Real.sqrt t := Real.sqrt_pos.mpr ht
  set u := Real.sqrt t with hu
  set g : ℝ → ℝ := fun v => (Real.log (s / k) + (rd - rf + 0.5 * v ^ 2) * t) / (v * u) with hgdef
  have hfun : (fun v => gk_price ⟨s, k, t, rd, rf, v, true⟩) =
      fun v => s * Real.exp (-rf * t) * norm_cdf (g v) -
        k * Real.exp (-rd * t) * norm_cdf (g v - v * u) := by
    funext v
    simp [gk_price, d1_d2, hgdef]
  have hnum : HasDerivAt (fun v : ℝ => Real.log (s / k) + (rd - rf + 0.5 * v ^ 2) * t)
      (σ * t) σ := by
    have h1 : HasDerivAt (fun v : ℝ => v ^ 2) (2 * σ) σ := by
      simpa using hasDerivAt_pow 2 σ
    have h3 := (((h1.const_mul (0.5:ℝ)).const_add (rd - rf)).mul_const t).const_add
      (Real.log (s / k))
    convert h3 using 1
    ring
  have hden : HasDerivAt (fun v : ℝ => v * u) u σ := by
    simpa using (hasDerivAt_id σ).mul_const u
  have hden_ne : σ * u ≠ 0 := by positivity
  have hg : HasDerivAt g
      ((σ * t * (σ * u) - (Real.log (s / k) + (rd - rf + 0.5 * σ ^ 2) * t) * u) / (σ * u) ^ 2)
      σ := hnum.div hden hden_ne
  set G := (σ * t * (σ * u) - (Real.log (s / k) + (rd - rf + 0.5 * σ ^ 2) * t) * u) / (σ * u) ^ 2
    with hGdef
  have hgd2 : HasDerivAt (fun v => g v - v * u) (G - u) σ := hg.sub hden
  have hN1 : HasDerivAt (fun v => norm_cdf (g v)) (norm_pdf (g σ) * G) σ :=
    (hasDerivAt_norm_cdf (g σ)).comp σ hg
  have hN2 : HasDerivAt (fun v => norm_cdf (g v - v * u))
      (norm_pdf (g σ - σ * u) * (G - u)) σ :=
    (hasDerivAt_norm_cdf (g σ - σ * u)).comp σ hgd2
  have hP : HasDerivAt
      (fun v => s * Real.exp (-rf * t) * norm_cdf (g v) -
        k * Real.exp (-rd * t) * norm_cdf (g v - v * u))
      (s * Real.exp (-rf * t) * (norm_pdf (g σ) * G) -
        k * Real.exp (-rd * t) * (norm_pdf (g σ - σ * u) * (G - u))) σ :=
    (hN1.const_mul _).sub (hN2.const_mul _)
  rw [hfun]
  have hd1g : (d1_d2 ⟨s, k, t, rd, rf, σ, true⟩).1 = g σ := by
    simp [d1_d2, hgdef]
  have hd2g : (d1_d2 ⟨s, k, t, rd, rf, σ, true⟩).2 = g σ - σ * u := by
    simp [d1_d2, hgdef]
  have hkey := gk_pdf_identity s k t rd rf σ hs hk ht hσ
  rw [hd1g, hd2g] at hkey
  have hveq : gk_vega ⟨s, k, t, rd, rf, σ, true⟩ =
      s * Real.exp (-rf * t) * (norm_pdf (g σ) * G) -
        k * Real.exp (-rd * t) * (norm_pdf (g σ - σ * u) * (G - u)) := by
    simp only [gk_vega, hd1g, ← hu]
    linear_combination (G - u) * hkey
  rw [hveq]
  exact hP

/-- C6 counterexample: `util.year_fraction` applied to a reversed pair of
dates (start 2024-01-02, end 2024-01-01) under ACT/365F returns the
negative value -1/365 instead of clamping to zero. -/
theorem year_fraction_reversed_dates_negative :
    year_fraction dateB dateA DayCount.act365f < 0 := by
  have h : daysBetween dateB dateA = -1 := by decide
  simp [year_fraction, h]
  norm_num

/-- C6 (amended): the GK-internal ACT/365F helper
`_year_fraction_act365` clamps at zero and is never negative for any
pair of dates, but the general `util.year_fraction` performs no
clamping and returns negative values when end precedes start. -/
theorem year_fraction_clamp_only_in_gk_helper :
    (∀ start stop : Date, 0 ≤ gkYearFractionAct365 start stop) ∧
      year_fraction dateB dateA DayCount.act365f < 0 := by
  constructor
  · intro start stop
    exact le_max_left 0 _
  · have h : daysBetween dateB dateA = -1 := by decide
    simp [year_fraction, h]
    norm_num

/-- C9: whenever the tenor axis is empty, the strike axis is empty, the
number of vol rows differs from the number of tenors, or some row has a
length different from the number of strikes, `set_surface_vol` raises a
shape error and the stored term structure of the parameter is exactly
the one from before the call. -/
theorem set_surface_vol_shape_guard (v : EQVol) (strikes : List ℝ)
    (tenors : List String) (vols : List (List ℝ)) (referenceDate : Date)
    (h : tenors.length = 0 ∨ strikes.length = 0 ∨ vols.length ≠ tenors.length ∨
      ∃ row ∈ vols, row.length ≠ strikes.length) :
    ∃ msg, v.set_surface_vol strikes tenors vols referenceDate = (some msg, v) := by
  unfold EQVol.set_surface_vol
  by_cases h1 : tenors.length = 0 ∨ strikes.length = 0
  · rw [if_pos h1]; exact ⟨_, rfl⟩
  · rw [if_neg h1]
    by_cases h2 : vols.length ≠ tenors.length
    · rw [if_pos h2]; exact ⟨_, rfl⟩
    · rw [if_neg h2]
      have h3 : ∃ row ∈ vols, row.length ≠ strikes.length := by
        rcases h with h | h | h | h
        · exact absurd (Or.inl h) h1
        · exact absurd (Or.inr h) h1
        · exact absurd h h2
        · exact h
      have h4 : vols.any (fun row => row.length ≠ strikes.length) = true := by
        rw [List.any_eq_true]
        obtain ⟨row, hrow, hne⟩ := h3
        exact ⟨row, hrow, by simpa using hne⟩
      rw [if_pos h4]
      exact ⟨_, rfl⟩

/-- C9 witness: a concrete mismatched call (one strike, one tenor, zero
vol rows) raises and leaves the parameter untouched. -/
theorem set_surface_vol_shape_guard_witness :
    ∃ msg, (mkEQVol "USD").set_surface_vol [100] ["1M"] [] dateA =
      (some msg, mkEQVol "USD") :=
  set_surface_vol_shape_guard (mkEQVol "USD") [100] ["1M"] [] dateA
    (Or.inr (Or.inr (Or.inl (by decide))))

lemma ivLoop_state_eq (P : BSModel → ℝ) (target tol : ℝ) (referenceDate : Date) :
    ∀ (fuel : ℕ) (sigma : ℝ) (o : EQOption),
      (ivLoop P target tol referenceDate fuel sigma o).state = o := by
  intro fuel
  induction fuel with
  | zero => intro sigma o; rfl
  | succ n ih =>
    intro sigma o
    cases hsp : o.spot <;> cases hir : o.ir_curve <;> cases hdv : o.div_curve <;>
      simp [ivLoop, hsp, hir, hdv, BSModel.vegaLookup] <;> split_ifs <;> rfl

/-- C10: an `implied_vol` call returns the option state it started from,
whatever its outcome: the option market snapshot (bound vol, curves,
spot, model wiring) is never written, because every iteration builds a
fresh temporary vol and a fresh temporary model. -/
theorem implied_vol_preserves_option_state (P : BSModel → ℝ) (o : EQOption)
    (target_price : ℝ) (reference_date : Date) (initial_vol tol : ℝ) (max_iter : ℕ) :
    (EQOption.implied_vol P o target_price reference_date initial_vol tol max_iter).state = o := by
  unfold EQOption.implied_vol
  cases hv : o.validate_market with
  | some msg => rfl
  | none =>
    by_cases he : (if o.pricing_engine = "default" then "bs_analytic" else o.pricing_engine) ≠ "bs_analytic"
    · rw [if_pos he]
    · rw [if_neg he]
      exact ivLoop_state_eq P target_price tol reference_date max_iter initial_vol o

/-- C4 (code evaluation): the low-vega guard of `implied_vol` is
unreachable.  The `RuntimeError("Vega too small for stable IV solve")`
branch and the Newton clamp sit below the `tmp_model.vega` lookup, and
`BlackScholesAnalyticEQModel` has no `vega` attribute, so every
non-converged iteration raises `AttributeError` first: no run of the
loop can ever produce the low-vega error (nor, a fortiori, take a
clamped Newton step). -/
theorem ivLoop_low_vega_unreachable (P : BSModel → ℝ) (target tol : ℝ)
    (referenceDate : Date) (fuel : ℕ) (sigma : ℝ) (o : EQOption) :
    (ivLoop P target tol referenceDate fuel sigma o).out ≠
      Except.error (IVErr.runtimeError "Vega too small for stable IV solve") := by
  cases fuel with
  | zero => simp [ivLoop]
  | succ n =>
    cases hsp : o.spot <;> cases hir : o.ir_curve <;> cases hdv : o.div_curve <;>
      simp [ivLoop, hsp, hir, hdv, BSModel.vegaLookup] <;> split_ifs <;> simp

lemma ivLoop_ok_price_within_tol (P : BSModel → ℝ) (target tol : ℝ)
    (referenceDate : Date) (s : ℝ) (ir : IRCurve) (dv : DivCurve) :
    ∀ (fuel : ℕ) (sigma : ℝ) (o : EQOption) (found : ℝ),
      o.spot = some s → o.ir_curve = some ir → o.div_curve = some dv →
      (ivLoop P target tol referenceDate fuel sigma o).out = Except.ok found →
      |P (o.tmpModel found referenceDate s ir dv) - target| < tol := by
  intro fuel
  induction fuel with
  | zero =>
    intro sigma o found _ _ _ hout
    simp [ivLoop] at hout
  | succ n ih =>
    intro sigma o found hsp hir hdv hout
    rw [ivLoop] at hout
    rw [hsp, hir, hdv] at hout
    by_cases hc : |P (o.tmpModel sigma referenceDate s ir dv) - target| < tol
    · simp only [hc, if_true] at hout
      simp only [Except.ok.injEq] at hout
      rw [← hout]
      exact hc
    · simp only [hc, if_false, BSModel.vegaLookup] at hout
      exact Except.noConfusion hout

/-- C1: round-trip of pricing and implied vol.  For any market snapshot
bound to the option, any pricing function, any true vol `sigma_true`
and any initial guess from which the Newton solve returns (converges),
the returned vol `found` prices back within the solver tolerance of the
target — where the target is the model price at `sigma_true`, so the
model price at `found` is within `tol` of the model price at
`sigma_true`. -/
theorem implied_vol_round_trip (P : BSModel → ℝ) (o : EQOption) (reference_date : Date)
    (s : ℝ) (ir : IRCurve) (dv : DivCurve) (sigma_true initial_vol tol : ℝ)
    (max_iter : ℕ) (found : ℝ)
    (hsp : o.spot = some s) (hir : o.ir_curve = some ir) (hdv : o.div_curve = some dv)
    (hok : (EQOption.implied_vol P o (P (o.tmpModel sigma_true reference_date s ir dv))
        reference_date initial_vol tol max_iter).out = Except.ok found) :
    |P (o.tmpModel found reference_date s ir dv) -
      P (o.tmpModel sigma_true reference_date s ir dv)| < tol := by
  unfold EQOption.implied_vol at hok
  cases hv : o.validate_market with
  | some msg => rw [hv] at hok; exact Except.noConfusion hok
  | none =>
    rw [hv] at hok
    by_cases he : (if o.pricing_engine = "default" then "bs_analytic" else o.pricing_engine) ≠ "bs_analytic"
    · rw [if_pos he] at hok; exact Except.noConfusion hok
    · rw [if_neg he] at hok
      exact ivLoop_ok_price_within_tol P _ tol reference_date s ir dv
        max_iter initial_vol o found hsp hir hdv hok

/-- C1 witness: a concrete convergent solve (flat-sigma pricing map,
true vol 0.25, guess 0.25) returns 0.25 and the round-trip bound holds. -/
theorem implied_vol_round_trip_witness :
    (EQOption.implied_vol flatSigmaPrice sampleOption
        (flatSigmaPrice (sampleOption.tmpModel (1/4) dateA 100 ⟨3/100⟩ ⟨0⟩))
        dateA (1/4) (1/1000000) 1).out = Except.ok (1/4) ∧
    |flatSigmaPrice (sampleOption.tmpModel (1/4) dateA 100 ⟨3/100⟩ ⟨0⟩) -
      flatSigmaPrice (sampleOption.tmpModel (1/4) dateA 100 ⟨3/100⟩ ⟨0⟩)| < 1/1000000 := by
  have hok : (EQOption.implied_vol flatSigmaPrice sampleOption
      (flatSigmaPrice (sampleOption.tmpModel (1/4) dateA 100 ⟨3/100⟩ ⟨0⟩))
      dateA (1/4) (1/1000000) 1).out = Except.ok (1/4) := by
    norm_num [EQOption.implied_vol, EQOption.validate_market, sampleOption, ivLoop,
      EQOption.tmpModel, EQOption.volCurrency, mkEQVol, EQVol.set_flat_vol, flatSigmaPrice,
      BSModel.vegaLookup]
  exact ⟨hok, implied_vol_round_trip flatSigmaPrice sampleOption dateA 100 ⟨3/100⟩ ⟨0⟩
    (1/4) (1/4) (1/1000000) 1 (1/4) rfl rfl rfl hok⟩

/-- C2 counterexample: called with target_price = 0 (which is ≤ 0) the
solver does not fail before iterating: it enters the Newton loop,
performs a price evaluation (rounds = 1), and the exception that ends
the run is the AttributeError from the vega lookup, not any
invalid-target validation error. -/
theorem implied_vol_iterates_on_nonpositive_target :
    EQOption.implied_vol flatSigmaPrice sampleOption 0 dateA (1/5) (1/1000000) 3 =
      ⟨Except.error (IVErr.attributeError
        "BlackScholesAnalyticEQModel object has no attribute vega"), 1, sampleOption⟩ := by
  norm_num [EQOption.implied_vol, EQOption.validate_market, sampleOption, ivLoop,
    EQOption.tmpModel, EQOption.volCurrency, mkEQVol, EQVol.set_flat_vol, flatSigmaPrice,
    BSModel.vegaLookup]
  intro h
  rw [show |(1:ℝ)/5| = 1/5 from abs_of_nonneg (by norm_num)] at h
  norm_num at h

/-- C2 (amended): `implied_vol` performs no validation of
`target_price` at all.  Whenever market validation and the engine gate
pass and `max_iter ≥ 1`, the Newton loop is entered and at least one
price evaluation is performed, whatever the sign of `target_price`. -/
theorem implied_vol_no_target_check (P : BSModel → ℝ) (o : EQOption)
    (target_price : ℝ) (reference_date : Date) (initial_vol tol : ℝ) (max_iter : ℕ)
    (hv : o.validate_market = none) (he : o.pricing_engine = "bs_analytic")
    (hm : 1 ≤ max_iter) :
    1 ≤ (EQOption.implied_vol P o target_price reference_date initial_vol tol max_iter).rounds := by
  unfold EQOption.implied_vol
  rw [hv]
  have hcond : ¬((if o.pricing_engine = "default" then "bs_analytic" else o.pricing_engine)
      ≠ "bs_analytic") := by rw [he]; simp
  rw [if_neg hcond]
  obtain ⟨m, rfl⟩ : ∃ m, max_iter = m + 1 := ⟨max_iter - 1, (Nat.succ_pred_eq_of_pos hm).symm⟩
  cases hsp : o.spot <;> cases hir : o.ir_curve <;> cases hdv : o.div_curve <;>
    simp [ivLoop, hsp, hir, hdv, BSModel.vegaLookup] <;> split_ifs <;> simp

/-- C2 amended-claim witness: a concrete call with negative target
price still performs a price evaluation. -/
theorem implied_vol_no_target_check_witness :
    1 ≤ (EQOption.implied_vol flatSigmaPrice sampleOption (-1) dateA (1/5) (1/1000000) 3).rounds :=
  implied_vol_no_target_check flatSigmaPrice sampleOption (-1) dateA (1/5) (1/1000000) 3
    rfl rfl (by norm_num)

/-- C3 (code evaluation): a run with max_iter = 100 whose first
iteration does not meet tolerance stops after a single round with the
AttributeError raised by the `tmp_model.vega` lookup; the
NonConvergenceError path after max_iter exhausted rounds is never
reached for max_iter ≥ 1. -/
theorem implied_vol_attribute_error_preempts_cap :
    EQOption.implied_vol flatSigmaPrice sampleOption 5 dateA (1/5) (1/1000000) 100 =
      ⟨Except.error (IVErr.attributeError
        "BlackScholesAnalyticEQModel object has no attribute vega"), 1, sampleOption⟩ := by
  norm_num [EQOption.implied_vol, EQOption.validate_market, sampleOption, ivLoop,
    EQOption.tmpModel, EQOption.volCurrency, mkEQVol, EQVol.set_flat_vol, flatSigmaPrice,
    BSModel.vegaLookup]
  intro h
  rw [show |(24:ℝ)/5| = 24/5 from abs_of_nonneg (by norm_num)] at h
  norm_num at h

/-- C5: put-call parity for the Garman-Kohlhagen model.  For every
valid input set (s, k, t, sigma positive), the call price minus the put
price differs from `s e^(-rf t) - k e^(-rd t)` by at most 1e-8 (in
fact the two sides coincide exactly). -/
theorem gk_put_call_parity (s k t rd rf σ : ℝ)
    (hs : 0 < s) (hk : 0 < k) (ht : 0 < t) (hσ : 0 < σ) :
    |gk_price ⟨s, k, t, rd, rf, σ, true⟩ - gk_price ⟨s, k, t, rd, rf, σ, false⟩ -
      (s * Real.exp (-rf * t) - k * Real.exp (-rd * t))| ≤ 1e-8 := by
  have hexact : gk_price ⟨s, k, t, rd, rf, σ, true⟩ - gk_price ⟨s, k, t, rd, rf, σ, false⟩ =
      s * Real.exp (-rf * t) - k * Real.exp (-rd * t) := by
    simp only [gk_price, d1_d2]
    set d1 := (Real.log (s / k) + (rd - rf + 0.5 * σ ^ 2) * t) / (σ * Real.sqrt t) with hd1
    have h1 := norm_cdf_add_neg d1
    have h2 := norm_cdf_add_neg (d1 - σ * Real.sqrt t)
    simp only [if_true, if_false, Bool.false_eq_true]
    linear_combination (s * Real.exp (-rf * t)) * h1 - (k * Real.exp (-rd * t)) * h2
  rw [show gk_price ⟨s, k, t, rd, rf, σ, true⟩ - gk_price ⟨s, k, t, rd, rf, σ, false⟩ -
      (s * Real.exp (-rf * t) - k * Real.exp (-rd * t)) = 0 from by linear_combination hexact]
  norm_num

/-- C5 witness: the parity bound at the concrete valid inputs
s = k = t = sigma = 1, rd = rf = 0. -/
theorem gk_put_call_parity_witness :
    |gk_price ⟨1, 1, 1, 0, 0, 1, true⟩ - gk_price ⟨1, 1, 1, 0, 0, 1, false⟩ -
      ((1:ℝ) * Real.exp (-0 * 1) - 1 * Real.exp (-0 * 1))| ≤ 1e-8 :=
  gk_put_call_parity 1 1 1 0 0 1 (by norm_num) (by norm_num) (by norm_num) (by norm_num)

/-- C8: for valid FX call inputs, the spot delta is exactly
`e^(-rf t) * N(d1)` (not premium-adjusted), it lies strictly between 0
and `e^(-rf t)`, and the model vega is the derivative of the model
price with respect to sigma expressed as a decimal. -/
theorem gk_call_delta_bounds_and_vega_deriv (s k t rd rf σ : ℝ)
    (hs : 0 < s) (hk : 0 < k) (ht : 0 < t) (hσ : 0 < σ) :
    gk_delta ⟨s, k, t, rd, rf, σ, true⟩ =
        Real.exp (-rf * t) * norm_cdf (d1_d2 ⟨s, k, t, rd, rf, σ, true⟩).1 ∧
    0 < gk_delta ⟨s, k, t, rd, rf, σ, true⟩ ∧
    gk_delta ⟨s, k, t, rd, rf, σ, true⟩ < Real.exp (-rf * t) ∧
    HasDerivAt (fun v => gk_price ⟨s, k, t, rd, rf, v, true⟩)
      (gk_vega ⟨s, k, t, rd, rf, σ, true⟩) σ := by
  have hform : gk_delta ⟨s, k, t, rd, rf, σ, true⟩ =
      Real.exp (-rf * t) * norm_cdf (d1_d2 ⟨s, k, t, rd, rf, σ, true⟩).1 := by
    simp [gk_delta]
  refine ⟨hform, ?_, ?_, gk_vega_is_deriv s k t rd rf σ hs hk ht hσ⟩
  · rw [hform]
    exact mul_pos (Real.exp_pos _) (norm_cdf_pos _)
  · rw [hform]
    calc Real.exp (-rf * t) * norm_cdf (d1_d2 ⟨s, k, t, rd, rf, σ, true⟩).1
        < Real.exp (-rf * t) * 1 :=
          mul_lt_mul_of_pos_left (norm_cdf_lt_one _) (Real.exp_pos _)
      _ = Real.exp (-rf * t) := mul_one _

/-- C8 witness: the delta formula, both strict bounds and the vega
derivative at the concrete valid inputs s = k = t = sigma = 1,
rd = rf = 0. -/
theorem gk_call_delta_bounds_and_vega_deriv_witness :
    gk_delta ⟨1, 1, 1, 0, 0, 1, true⟩ =
        Real.exp (-(0:ℝ) * 1) * norm_cdf (d1_d2 ⟨1, 1, 1, 0, 0, 1, true⟩).1 ∧
    0 < gk_delta ⟨1, 1, 1, 0, 0, 1, true⟩ ∧
    gk_delta ⟨1, 1, 1, 0, 0, 1, true⟩ < Real.exp (-(0:ℝ) * 1) ∧
    HasDerivAt (fun v => gk_price ⟨1, 1, 1, 0, 0, v, true⟩)
      (gk_vega ⟨1, 1, 1, 0, 0, 1, true⟩) 1 :=
  gk_call_delta_bounds_and_vega_deriv 1 1 1 0 0 1
    (by norm_num) (by norm_num) (by norm_num) (by norm_num)

/-- C7 counterexample: an FX option view whose domestic and foreign
rate-curve attributes are all absent is resolved successfully by
`_inputs` with both rates silently read as 0.0 — no error naming the
missing curves is raised. -/
theorem gk_missing_curves_priced_at_zero_rate :
    gkInputs sampleFXView none = Except.ok ⟨1, 1, 1, 0, 0, 1/5, true⟩ := by
  have ht : gkYearFractionAct365 dateC dateA = 1 := by
    have h : daysBetween dateC dateA = 365 := by decide
    rw [gkYearFractionAct365, h]
    norm_num
  simp [gkInputs, sampleFXView, getCurveRate, getVol, ht]
  norm_num
  decide

/-- C7 (amended): the vol input is mandatory — reading a missing vol
object raises `ValueError("vol is required")` — but the rate curves are
not: `_get_curve_rate` silently resolves a missing (`None`) curve to
the rate 0.0 for every time argument, so a missing domestic or foreign
curve is priced as a zero rate instead of raising an error naming the
missing field. -/
theorem gk_missing_vol_errors_but_curves_default_zero :
    (∀ t : ℝ, getCurveRate none t = Except.ok 0) ∧
      getVol none = Except.error "vol is required" :=
  ⟨fun _ => rfl, rfl⟩
